import Mathlib

/-!
Verification of the OceanBestPractices indexing/search core: a shallow
embedding of the term index synchronizer, the scroll-based bulk scan,
the percolation tagger, the keyword-search handler, the synonym
resolver, the search document builder, and the error-handling paths of
the index/graph store clients, together with theorems settling the
specification claims about them.
-/

namespace OBP

/-- A term binding fetched from the graph store (`fetchTerms` maps each
SPARQL binding to `\x7b label: b.slabel.value, uri: b.s.value \x7d`). -/
structure FetchedTerm where
  label : String
  uri : String
deriving DecidableEq, Repr

/-- The filter applied by `indexTerms` to a fetched page:
`(t) => t.label.length > 2 && !stopwords.includes(t.label)`. -/
def isValidTerm (stopwords : List String) (t : FetchedTerm) : Bool :=
  decide (t.label.length > 2) && !(stopwords.contains t.label)

/-- One iteration of the `indexTerms` while-loop body, for one fetched
page: filters the page, issues a bulk-index call only when some valid
terms remain (`if (validTerms.length > 0) await bulkIndexTerms(...)`),
and advances the offset by the raw page size (`offset += terms.length`).
Returns the list of bulk-index calls issued (each with its term list)
and the new offset. -/
def indexTermsStep (stopwords : List String) (offset : Nat)
    (page : List FetchedTerm) : List (List FetchedTerm) × Nat :=
  let validTerms := page.filter (isValidTerm stopwords)
  ((if validTerms.length > 0 then [validTerms] else []), offset + page.length)

/-- Trace of a complete `indexTerms` run: the bulk-index calls issued,
the offsets of the (non-empty) pages processed, and the offset at which
the loop stopped. -/
structure IndexTermsTrace where
  bulkCalls : List (List FetchedTerm)
  visited : List Nat
  finalOffset : Nat
deriving DecidableEq, Repr

/-- The `indexTerms` pagination loop: starting from `offset`, fetch a
page; stop when it is empty (`if (terms.length === 0) break`), otherwise
run the loop body (`indexTermsStep`) and continue at the advanced
offset. `fetch` abstracts `fetchTerms` over the graph store; the fuel
argument bounds the number of iterations so the function is total, with
`none` meaning the fuel ran out before the loop stopped. -/
def indexTermsRun (fetch : Nat → List FetchedTerm) (stopwords : List String) :
    Nat → Nat → Option IndexTermsTrace
  | 0, _ => none
  | fuel + 1, offset =>
    let terms := fetch offset
    if terms.length = 0 then
      some { bulkCalls := [], visited := [], finalOffset := offset }
    else
      let step := indexTermsStep stopwords offset terms
      match indexTermsRun fetch stopwords fuel step.2 with
      | none => none
      | some tr =>
        some { bulkCalls := step.1 ++ tr.bulkCalls,
               visited := offset :: tr.visited,
               finalOffset := tr.finalOffset }

end OBP

namespace OBP

/-- Sequential model of `pMap(hits, f)` inside `scrollMap`: apply the
per-hit handler to each hit in order, stopping at the first handler
failure. Returns the overall result and the list of hits the handler
was applied to. -/
def pMapRun {α ε : Type} (f : α → Except ε Unit) : List α → Except ε Unit × List α
  | [] => (Except.ok (), [])
  | h :: rest =>
    match f h with
    | Except.error e => (Except.error e, [h])
    | Except.ok _ =>
      let r := pMapRun f rest
      (r.1, h :: r.2)

/-- Observable events of a `scrollMap` run: a per-hit handler
application, a `nextScroll` call (recording the cursor the code sent and
the cursor the store returned), and a `closeScroll` call. -/
inductive ScrollEvent (σ α : Type)
  | handled (hit : α)
  | nextCalled (sent : σ) (returned : σ)
  | closed (cursor : σ)
deriving DecidableEq, Repr

/-- The `while (hits.length > 0)` loop of `scrollMap`. The store is a
stateful `nextScroll` operation `next cursor state = ((cursor, hits),
state)`. Faithful to the source, every `nextScroll` call is made with
`scrollId`, the cursor captured from the `openScroll` response
(`await nextScroll(esUrl, scrollId)`), never with the cursor returned
by the previous call. Fuel bounds the iterations; `none` means the fuel
ran out. -/
def scrollLoop {σ α ε S : Type} (next : σ → S → (σ × List α) × S)
    (f : α → Except ε Unit) (scrollId : σ) :
    Nat → List α → S → Option (Except ε Unit × List (ScrollEvent σ α))
  | 0, hits, _ =>
    if hits.length > 0 then none else some (Except.ok (), [])
  | fuel + 1, hits, st =>
    if hits.length > 0 then
      match pMapRun f hits with
      | (Except.error e, handled) =>
        some (Except.error e, handled.map ScrollEvent.handled)
      | (Except.ok _, handled) =>
        let step := next scrollId st
        match scrollLoop next f scrollId fuel step.1.2 step.2 with
        | none => none
        | some res =>
          some (res.1, handled.map ScrollEvent.handled
            ++ ScrollEvent.nextCalled scrollId step.1.1 :: res.2)
    else some (Except.ok (), [])

/-- `scrollMap`: open a scroll (the response carries the cursor and the
first page of hits), run the scan loop inside a `try`, and close the
scroll in the `finally` with the cursor from the open response, on both
the success and the handler-failure path. -/
def scrollMapRun {σ α ε S : Type} (openResp : σ × List α)
    (next : σ → S → (σ × List α) × S) (st : S)
    (f : α → Except ε Unit) (fuel : Nat) :
    Option (Except ε Unit × List (ScrollEvent σ α)) :=
  match scrollLoop next f openResp.1 fuel openResp.2 st with
  | none => none
  | some res => some (res.1, res.2 ++ [ScrollEvent.closed openResp.1])

/-- A search-store scroll backend holding the remaining pages and a
cursor counter. `nextScroll` pops the next page regardless of which
(still valid) cursor the caller sent, and issues a fresh cursor with
each response, as the scroll protocol allows. -/
def esNext {α : Type} : Nat → (List (List α) × Nat) → ((Nat × List α) × (List (List α) × Nat))
  | _, (pages, c) =>
    match pages with
    | [] => ((c + 1, []), ([], c + 1))
    | p :: rest => ((c + 1, p), (rest, c + 1))

/-- The `openScroll` response for a store holding `pages`: cursor `0`
and the first page, with the remaining pages as the backend state. -/
def esOpen {α : Type} (pages : List (List α)) :
    (Nat × List α) × (List (List α) × Nat) :=
  ((0, pages.headD []), (pages.tail, 0))

/-- Hits the per-hit handler was applied to, in order, extracted from a
`scrollMap` event trace. -/
def handledHits {σ α : Type} : List (ScrollEvent σ α) → List α
  | [] => []
  | ScrollEvent.handled h :: rest => h :: handledHits rest
  | ScrollEvent.nextCalled _ _ :: rest => handledHits rest
  | ScrollEvent.closed _ :: rest => handledHits rest

/-- Number of `closeScroll` calls in a `scrollMap` event trace. -/
def closedCount {σ α : Type} : List (ScrollEvent σ α) → Nat
  | [] => 0
  | ScrollEvent.closed _ :: rest => closedCount rest + 1
  | ScrollEvent.handled _ :: rest => closedCount rest
  | ScrollEvent.nextCalled _ _ :: rest => closedCount rest

/-- The `nextScroll` calls in a `scrollMap` event trace, each as the
pair (cursor sent by the code, cursor returned by the store). -/
def nextCalls {σ α : Type} : List (ScrollEvent σ α) → List (σ × σ)
  | [] => []
  | ScrollEvent.nextCalled s r :: rest => (s, r) :: nextCalls rest
  | ScrollEvent.handled _ :: rest => nextCalls rest
  | ScrollEvent.closed _ :: rest => nextCalls rest

/-- A handler that always succeeds, used to exercise the success path
of `scrollMapRun` on concrete stores. -/
def okHandler : Nat → Except Unit Unit := fun _ => Except.ok ()

/-- Concrete three-page scroll fixture used to evaluate the cursor
protocol of `scrollMap`. -/
def cursorFixturePages : List (List Nat) := [[10], [20], [30]]

/-- The `nextScroll` calls `scrollMap` makes against the three-page
fixture store, as (sent cursor, returned cursor) pairs. -/
def cursorFixtureNextCalls : Option (List (Nat × Nat)) :=
  (scrollMapRun (esOpen cursorFixturePages).1 esNext
      (esOpen cursorFixturePages).2 okHandler 4).map
    fun res => nextCalls res.2

end OBP

namespace OBP

/-- The `multi_match` object embedded in a stored percolator
query-document (`h._source.query.multi_match`). -/
structure MultiMatchQuery where
  query : String
deriving DecidableEq, Repr

/-- The stored percolator query wrapper (`h._source.query`). -/
structure PercolatorQuery where
  multi_match : MultiMatchQuery
deriving DecidableEq, Repr

/-- The `_source` of a percolate hit: the stored query-document with its
embedded label query, uri, source terminology and provenance graph. -/
structure PercolateHitSource where
  query : PercolatorQuery
  uri : String
  source_terminology : String
  namedGraphUri : String
deriving DecidableEq, Repr

/-- One hit of a percolate response. -/
structure PercolateHit where
  _source : PercolateHitSource
deriving DecidableEq, Repr

/-- A tag record produced by the percolation tagger. -/
structure DocumentItemTerm where
  label : String
  uri : String
  source_terminology : String
  namedGraphUri : String
deriving DecidableEq, Repr

/-- The response mapping of `percolateDocumentFields`: each hit of a
schema-valid percolate response becomes one `DocumentItemTerm` reading
`label` from `h._source.query.multi_match.query` and the remaining
fields from `h._source` directly. -/
def percolateDocumentFields (hits : List PercolateHit) : List DocumentItemTerm :=
  hits.map fun h =>
    { label := h._source.query.multi_match.query,
      uri := h._source.uri,
      source_terminology := h._source.source_terminology,
      namedGraphUri := h._source.namedGraphUri }

/-- Options of `percolateDocumentFields` (`\x7b from?, size? \x7d`). -/
structure PercolateDocumentFieldsOptions where
  from_ : Option Nat
  size : Option Nat
deriving DecidableEq, Repr

/-- The pagination window of the percolate request body. -/
structure PercolateRequestWindow where
  from_ : Nat
  size : Nat
deriving DecidableEq, Repr

/-- The window put into the percolate request body:
`const \x7b from = 0, size = 300 \x7d = options`. -/
def percolateRequestWindow (o : PercolateDocumentFieldsOptions) : PercolateRequestWindow :=
  { from_ := o.from_.getD 0, size := o.size.getD 300 }

end OBP

namespace OBP

/-- A JavaScript value as it flows through the search handler: the
parsed parameters mix booleans, strings and numbers. -/
inductive JSVal
  | bool (b : Bool)
  | str (s : String)
  | num (n : Nat)
deriving DecidableEq, Repr

/-- JavaScript truthiness for the values `JSVal` models: `false` is
falsy, a string is truthy iff non-empty, a number is truthy iff
non-zero. -/
def jsTruthy : JSVal → Bool
  | JSVal.bool b => b
  | JSVal.str s => !(s == "")
  | JSVal.num n => !(n == 0)

/-- The raw query-string parameters of a keyword-search request; every
parameter is an optional string, `none` when absent. -/
structure SearchQueryParams where
  keywords : Option String
  term : Option String
  termURI : Option String
  from_ : Option String
  size : Option String
  sort : Option String
  fields : Option String
  synonyms : Option String
  refereed : Option String
  endorsed : Option String
deriving DecidableEq, Repr

/-- Modelled from the spec: the default search field set imported by the
search handler (`defaultSearchFields` from `search-fields`, whose source
is not part of this extract). Its exact contents are immaterial to the
claims settled here. -/
def defaultSearchFields : List String := ["title"]

/-- The parsed search options the handler builds (`parseParams`). -/
structure SearchOpts where
  keywords : List String
  terms : List String
  termURIs : List String
  from_ : JSVal
  size : JSVal
  sort : List String
  fields : List String
  synonyms : JSVal
  refereed : JSVal
  endorsed : JSVal
deriving DecidableEq, Repr

/-- `parseParams` of the search handler: `keywords` splits on commas
only when present and non-empty; `term`/`termURI`/`sort`/`fields` split
on commas when present; `from`/`size` default to 0/20; `synonyms` and
`refereed` pass the raw parameter value through when present (defaulting
to `false`); `endorsed` is `params.endorsed === 'true'`. -/
def parseParams (p : SearchQueryParams) : SearchOpts :=
  { keywords :=
      match p.keywords with
      | some s => if s.length > 0 then s.splitOn "," else []
      | none => [],
    terms :=
      match p.term with
      | some s => s.splitOn ","
      | none => [],
    termURIs :=
      match p.termURI with
      | some s => s.splitOn ","
      | none => [],
    from_ :=
      match p.from_ with
      | some s => JSVal.str s
      | none => JSVal.num 0,
    size :=
      match p.size with
      | some s => JSVal.str s
      | none => JSVal.num 20,
    sort :=
      match p.sort with
      | some s => s.splitOn ","
      | none => [],
    fields :=
      match p.fields with
      | some s => s.splitOn ","
      | none => defaultSearchFields,
    synonyms :=
      match p.synonyms with
      | some s => JSVal.str s
      | none => JSVal.bool false,
    refereed :=
      match p.refereed with
      | some s => JSVal.str s
      | none => JSVal.bool false,
    endorsed := JSVal.bool (p.endorsed == some "true") }

/-- One SPARQL variable binding of a synonyms query response, covering
the variables the handler reads: `annotatedPropertyLabel` (optional),
`annotatedTarget` (always bound by the first union branch, which
produces `annotatedPropertyLabel`), and `sameAsLabel` (optional). -/
structure SynonymsBinding where
  annotatedPropertyLabel : Option String
  annotatedTarget : String
  sameAsLabel : Option String
deriving DecidableEq, Repr

/-- `parseSynonymsResponse`: walk the bindings in order; when
`annotatedPropertyLabel` is bound, push `annotatedTarget` exactly when
the label is `has_exact_synonym` or `alternative_label`; otherwise when
`sameAsLabel` is bound push it. -/
def parseSynonymsResponse (bindings : List SynonymsBinding) : List String :=
  bindings.foldl
    (fun acc r =>
      match r.annotatedPropertyLabel with
      | some v =>
        if v == "has_exact_synonym" || v == "alternative_label" then
          acc ++ [r.annotatedTarget]
        else acc
      | none =>
        match r.sameAsLabel with
        | some s => acc ++ [s]
        | none => acc)
    []

/-- The synonym a single binding contributes, written from the claim:
the annotation target when the annotation-property label is an
exact-synonym or alternative-label property, else the preferred label of
the equivalence-related concept. Used to characterize
`parseSynonymsResponse`. -/
def synonymOfBinding (r : SynonymsBinding) : Option String :=
  match r.annotatedPropertyLabel with
  | some v =>
    if v = "has_exact_synonym" ∨ v = "alternative_label" then
      some r.annotatedTarget
    else none
  | none => r.sameAsLabel

/-- `getSynonyms`: one graph query per keyword, gathered with
`Promise.all`, so the first failing query fails the whole expansion and
each successful response is parsed with `parseSynonymsResponse`. The
graph store is abstracted as `store`. -/
def getSynonyms (store : String → Except String (List SynonymsBinding)) :
    List String → Except String (List (List String))
  | [] => Except.ok []
  | k :: rest =>
    match store k with
    | Except.error e => Except.error e
    | Except.ok bs =>
      match getSynonyms store rest with
      | Except.error e => Except.error e
      | Except.ok others => Except.ok (parseSynonymsResponse bs :: others)

/-- The body of a search handler response: the empty JSON object, the
results of a search executed with the given options, or an error
payload. -/
inductive RespBody
  | emptyObject
  | searchResults (opts : SearchOpts)
  | errorBody
deriving DecidableEq, Repr

/-- An API Gateway style response: status code and body. -/
structure ApiResponse where
  statusCode : Nat
  body : RespBody
deriving DecidableEq, Repr

/-- The keyword-search handler: a missing or null parameter set, or a
missing `keywords` parameter, yields HTTP 200 with an empty JSON object;
otherwise the parameters are parsed and, when the `synonyms` flag is
truthy, the keyword list is expanded (`keywords.concat(r)` for each
per-keyword result) before the search executes, with any expansion
failure yielding a 500 error response and no search. -/
def searchHandler (qsp : Option SearchQueryParams)
    (store : String → Except String (List SynonymsBinding)) : ApiResponse :=
  match qsp with
  | none => { statusCode := 200, body := RespBody.emptyObject }
  | some params =>
    match params.keywords with
    | none => { statusCode := 200, body := RespBody.emptyObject }
    | some _ =>
      let opts := parseParams params
      if jsTruthy opts.synonyms then
        match getSynonyms store opts.keywords with
        | Except.error _ => { statusCode := 500, body := RespBody.errorBody }
        | Except.ok results =>
          let keywords := results.foldl (fun acc r => acc ++ r) opts.keywords
          { statusCode := 200,
            body := RespBody.searchResults { opts with keywords := keywords } }
      else
        { statusCode := 200, body := RespBody.searchResults opts }

end OBP

namespace OBP

/-- The full-text clause of the built search document
(`query.bool.must.query_string`). -/
structure QueryStringClause where
  fields : List String
  query : String
deriving DecidableEq, Repr

/-- A clause of the built search document's `filter` array: a nested
filter on `_terms.label`, a nested filter on `_terms.uri`, or an
exists filter on a metadata field. -/
inductive FilterClause
  | nestedTermsLabel (value : String)
  | nestedTermsUri (value : String)
  | existsField (field : String)
deriving DecidableEq, Repr

/-- A sort key of the built search document: a mapped field/direction
pair, or the relevance score `_score`. -/
inductive SortKey
  | fieldDir (field : String) (dir : String)
  | score
deriving DecidableEq, Repr

/-- The search document the builder produces. -/
structure DocumentSearchQuery where
  from_ : JSVal
  size : JSVal
  must : Option QueryStringClause
  filter : List FilterClause
  highlightFields : List String
  sort : List SortKey
  sourceExcludes : List String
deriving DecidableEq, Repr

/-- Split a character list on a separator character (structural model
of `split(':')`, used so sort entries evaluate by computation). -/
def splitCharList (c : Char) : List Char → List Char → List (List Char)
  | [], acc => [acc.reverse]
  | x :: xs, acc =>
    if x = c then acc.reverse :: splitCharList c xs []
    else splitCharList c xs (x :: acc)

/-- A `field:direction` sort entry mapped to a sort key. -/
def parseSortKey (s : String) : SortKey :=
  match (splitCharList ':' s.data []).map String.mk with
  | [f, d] => SortKey.fieldDir f d
  | _ => SortKey.fieldDir s "asc"

/-- Modelled from the spec: `buildDocumentSearchQuery` of the search
document builder, whose source (`search-query-builder`) is not part of
this extract; only its unit test is. Following the spec (and matching
the test fixture exactly): non-empty keywords become one query-string
clause over the search fields with each keyword as a quoted phrase;
`terms` and `termURIs` become nested filters followed by the
refereed/endorsed exists filters when those flags are truthy; the sort
list maps each `field:direction` pair and always ends with the
relevance score; the highlight request targets the extracted-text field
and `_source.excludes` always holds the extracted-text and raw
metadata/bitstream fields. -/
def buildDocumentSearchQuery (o : SearchOpts) : DocumentSearchQuery :=
  { from_ := o.from_,
    size := o.size,
    must :=
      if o.keywords.isEmpty then none
      else
        some { fields := o.fields,
               query := String.intercalate " "
                 (o.keywords.map fun k => " \"" ++ k ++ "\"") },
    filter :=
      o.terms.map FilterClause.nestedTermsLabel
      ++ o.termURIs.map FilterClause.nestedTermsUri
      ++ (if jsTruthy o.refereed then
            [FilterClause.existsField "dc_description_refereed"] else [])
      ++ (if jsTruthy o.endorsed then
            [FilterClause.existsField "obps_endorsementExternal_externalEndorsedBy"]
          else []),
    highlightFields := ["_bitstreamText"],
    sort := o.sort.map parseSortKey ++ [SortKey.score],
    sourceExcludes := ["_bitstreamText", "bitstreams", "metadata"] }

/-- The search options of the builder unit test fixture. -/
def c4Options : SearchOpts :=
  { keywords := ["ocean", "sea"],
    fields := ["title"],
    terms := ["alpha"],
    termURIs := ["uri://alpha"],
    from_ := JSVal.num 0,
    size := JSVal.num 20,
    refereed := JSVal.bool true,
    endorsed := JSVal.bool true,
    sort := ["title:asc"],
    synonyms := JSVal.bool false }

end OBP

namespace OBP

/-- One binding of the term synchronizer's SPARQL response
(`fetchTermsResponseSchema`): the term label (`slabel.value`) and the
concept URI (`s.value`). -/
structure FetchTermsBinding where
  slabel : String
  s : String
deriving DecidableEq, Repr

/-- Whether an `Except` result is a failure. -/
def exceptFailed {ε β : Type} : Except ε β → Bool
  | Except.error _ => true
  | Except.ok _ => false

/-- `fetchTerms` response handling: a non-200 status throws
(`Neptune request failed with status ...`); otherwise the body must
pass schema validation (`none` models a schema-invalid body, on which
the parse throws) and each binding is mapped to a `FetchedTerm`. -/
def fetchTermsResult (statusCode : Nat)
    (body : Option (List FetchTermsBinding)) : Except String (List FetchedTerm) :=
  if statusCode ≠ 200 then
    Except.error ("Neptune request failed with status " ++ toString statusCode)
  else
    match body with
    | none => Except.error "fetchTerms response failed schema validation"
    | some bindings =>
      Except.ok (bindings.map fun b => { label := b.slabel, uri := b.s })

/-- `bulkIndexTerms` response handling: a non-200 status throws
(`ES request failed with status ...`). -/
def bulkIndexTermsResult (statusCode : Nat) : Except String Unit :=
  if statusCode ≠ 200 then
    Except.error ("ES request failed with status " ++ toString statusCode)
  else Except.ok ()

/-- `createIndex` response handling: a 200 status is success; otherwise
the error type is read from the body (falling back to an
`Unexpected ... response` message); `resource_already_exists_exception`
is treated as success and anything else throws. -/
def createIndexResult (statusCode : Nat)
    (bodyErrorType : Option String) : Except String Unit :=
  if statusCode = 200 then Except.ok ()
  else
    let errorMessage :=
      bodyErrorType.getD ("Unexpected " ++ toString statusCode ++ " response")
    if errorMessage = "resource_already_exists_exception" then Except.ok ()
    else Except.error errorMessage

/-- `putDocumentItem` response handling: an HTTP error is caught and
logged, leaving the raw response `undefined` (`none`), after which the
schema parse of `undefined` throws; a defined raw body must pass the
schema parse (`parse`), whose failure also throws. -/
def putDocumentItemResult (rawResponse : Option String)
    (parse : String → Option String) : Except String String :=
  match rawResponse with
  | none => Except.error "schema parse failed: response was undefined"
  | some body =>
    match parse body with
    | none => Except.error "schema parse failed"
    | some r => Except.ok r

end OBP

namespace OBP

/-- Two-page scroll fixture used to exercise the success path of
`scrollMap`. -/
def c2Pages : List (List Nat) := [[1, 2], [3]]

/-- A request whose query-parameter set is present but carries no
parameter at all (in particular no `keywords`). -/
def c6Params : SearchQueryParams :=
  { keywords := none, term := none, termURI := none, from_ := none,
    size := none, sort := none, fields := none, synonyms := none,
    refereed := none, endorsed := none }

/-- A keyword-search request asking for synonym expansion of
`ocean,sea`. -/
def c8Params : SearchQueryParams :=
  { keywords := some "ocean,sea", term := none, termURI := none,
    from_ := none, size := none, sort := none, fields := none,
    synonyms := some "true", refereed := none, endorsed := none }

/-- A concrete per-keyword graph response fixture for the synonym
resolver. -/
def c8Bindings : String → List SynonymsBinding := fun k =>
  if k = "ocean" then
    [{ annotatedPropertyLabel := some "has_exact_synonym",
       annotatedTarget := "high seas", sameAsLabel := none },
     { annotatedPropertyLabel := some "definition",
       annotatedTarget := "ignored", sameAsLabel := none }]
  else
    [{ annotatedPropertyLabel := none, annotatedTarget := "unused",
       sameAsLabel := some "ocean water" }]

/-- A graph store answering every synonym query with the fixture
bindings. -/
def c8Store : String → Except String (List SynonymsBinding) :=
  fun k => Except.ok (c8Bindings k)

/-- A finite term listing: two non-empty pages, empty from offset 2
onward. -/
def c9Fetch : Nat → List FetchedTerm := fun k =>
  if k < 2 then [{ label := "seawater", uri := "uri://sea" }] else []

/-- A search request carrying the string `false` for both the
`refereed` and the `endorsed` parameter. -/
def c10Params : SearchQueryParams :=
  { keywords := some "ocean", term := none, termURI := none,
    from_ := none, size := none, sort := none, fields := none,
    synonyms := none, refereed := some "false", endorsed := some "false" }

end OBP

namespace OBP

/-- C1: for every fetched page of terms and every stopword list, the
`indexTerms` loop body bulk-indexes exactly those terms of the page
whose label has length strictly greater than 2 and is not contained in
the stopword list, and advances the offset by the raw page size, not by
the number of surviving terms. -/
theorem indexTerms_filters_and_advances_raw
    (stopwords : List String) (offset : Nat) (page : List FetchedTerm) :
    (indexTermsStep stopwords offset page).1.flatten
      = page.filter
          (fun t => decide (t.label.length > 2) && !(stopwords.contains t.label))
    ∧ (indexTermsStep stopwords offset page).2 = offset + page.length := by
  constructor
  · show (indexTermsStep stopwords offset page).1.flatten
      = page.filter (isValidTerm stopwords)
    unfold indexTermsStep
    by_cases h : 0 < (page.filter (isValidTerm stopwords)).length
    · simp only [h, if_pos]
      simp [List.flatten]
    · simp only [h, if_neg]
      have hnil : page.filter (isValidTerm stopwords) = [] :=
        List.length_eq_zero.mp (by omega)
      simp [List.flatten, hnil]
  · rfl

/-- C4: on the unit-test fixture options, the built search document has
the keywords as quoted phrases over the given fields, a filter array of
exactly four clauses in the order term-label nested filter, term-uri
nested filter, refereed-exists, endorsed-exists, a sort list of the
mapped field/direction pair followed by the relevance score, and source
excludes holding the extracted-text and raw metadata/bitstream
fields. -/
theorem search_document_builder_fixture :
    buildDocumentSearchQuery c4Options =
      { from_ := JSVal.num 0,
        size := JSVal.num 20,
        must := some { fields := ["title"], query := " \"ocean\"  \"sea\"" },
        filter := [FilterClause.nestedTermsLabel "alpha",
                   FilterClause.nestedTermsUri "uri://alpha",
                   FilterClause.existsField "dc_description_refereed",
                   FilterClause.existsField "obps_endorsementExternal_externalEndorsedBy"],
        highlightFields := ["_bitstreamText"],
        sort := [SortKey.fieldDir "title" "asc", SortKey.score],
        sourceExcludes := ["_bitstreamText", "bitstreams", "metadata"] }
    ∧ (buildDocumentSearchQuery c4Options).filter.length = 4
    ∧ "_bitstreamText" ∈ (buildDocumentSearchQuery c4Options).sourceExcludes
    ∧ "metadata" ∈ (buildDocumentSearchQuery c4Options).sourceExcludes
    ∧ "bitstreams" ∈ (buildDocumentSearchQuery c4Options).sourceExcludes := by
  refine ⟨?_, ?_, ?_, ?_, ?_⟩ <;> decide

/-- C5: the percolation tagger maps a zero-hit response to an empty tag
list, maps a response with N hits to exactly N records preserving
label, uri, source terminology and named graph URI from each hit's
stored query-document, and uses the default window from 0 and size 300
when the caller gives no options. -/
theorem percolate_tagger_mapping (hits : List PercolateHit) :
    percolateDocumentFields [] = []
    ∧ (percolateDocumentFields hits).length = hits.length
    ∧ (∀ i : Nat, (percolateDocumentFields hits)[i]? =
        (hits[i]?).map fun h =>
          ({ label := h._source.query.multi_match.query,
             uri := h._source.uri,
             source_terminology := h._source.source_terminology,
             namedGraphUri := h._source.namedGraphUri } : DocumentItemTerm))
    ∧ percolateRequestWindow { from_ := none, size := none } =
        { from_ := 0, size := 300 } := by
  refine ⟨rfl, ?_, ?_, rfl⟩
  · simp [percolateDocumentFields]
  · intro i
    simp [percolateDocumentFields, List.getElem?_map]

/-- C6: a search request whose query-parameter set is missing, or which
lacks the `keywords` parameter, is answered with HTTP 200 and the empty
JSON object, never an error and never a search result. -/
theorem searchHandler_missing_params (qsp : Option SearchQueryParams)
    (store : String → Except String (List SynonymsBinding))
    (h : qsp = none ∨ ∃ p, qsp = some p ∧ p.keywords = none) :
    searchHandler qsp store = { statusCode := 200, body := RespBody.emptyObject } := by
  rcases h with h | ⟨p, hp, hk⟩
  · subst h; rfl
  · subst hp
    simp [searchHandler, hk]

/-- Witness for C6 at the concrete empty parameter set. -/
theorem searchHandler_missing_params_witness :
    ((some c6Params : Option SearchQueryParams) = none
      ∨ ∃ p, (some c6Params : Option SearchQueryParams) = some p ∧ p.keywords = none)
    ∧ searchHandler (some c6Params) (fun _ => Except.ok [])
        = { statusCode := 200, body := RespBody.emptyObject } :=
  ⟨Or.inr ⟨c6Params, rfl, rfl⟩,
   searchHandler_missing_params (some c6Params) (fun _ => Except.ok [])
     (Or.inr ⟨c6Params, rfl, rfl⟩)⟩

/-- C3: evaluated on a three-page store that issues a fresh cursor with
every response, `scrollMap` sends the cursor from the `openScroll`
response (cursor 0) to every `nextScroll` call — the sent cursors are
[0, 0, 0] while the store returned the renewed cursors [1, 2, 3] — so
the calls are not made with the cursor returned by the immediately
preceding call, which would have been [0, 1, 2]. -/
theorem scrollMap_reuses_original_cursor :
    (cursorFixtureNextCalls.map fun l => l.map Prod.fst) = some [0, 0, 0]
    ∧ (cursorFixtureNextCalls.map fun l => l.map Prod.snd) = some [1, 2, 3]
    ∧ (cursorFixtureNextCalls.map fun l => l.map Prod.fst) ≠ some [0, 1, 2] := by
  refine ⟨?_, ?_, ?_⟩ <;> decide

/-- C10: when both flags arrive as the string `false`, `parseParams`
passes `refereed` through as the raw (truthy, non-empty) string while
`endorsed` is compared against the literal string `true`, so the built
search document gains the refereed-exists filter but not the
endorsed-exists filter. -/
theorem endorsed_strict_refereed_raw (p : SearchQueryParams)
    (h1 : p.refereed = some "false") (h2 : p.endorsed = some "false") :
    (parseParams p).refereed = JSVal.str "false"
    ∧ jsTruthy (parseParams p).refereed = true
    ∧ (parseParams p).endorsed = JSVal.bool false
    ∧ jsTruthy (parseParams p).endorsed = false
    ∧ FilterClause.existsField "dc_description_refereed"
        ∈ (buildDocumentSearchQuery (parseParams p)).filter
    ∧ FilterClause.existsField "obps_endorsementExternal_externalEndorsedBy"
        ∉ (buildDocumentSearchQuery (parseParams p)).filter := by
  refine ⟨?_, ?_, ?_, ?_, ?_, ?_⟩
  · simp [parseParams, h1]
  · simp [parseParams, h1, jsTruthy]
  · simp [parseParams, h2]
  · simp [parseParams, h2, jsTruthy]
  · simp [buildDocumentSearchQuery, parseParams, h1, h2, jsTruthy]
  · simp [buildDocumentSearchQuery, parseParams, h1, h2, jsTruthy]

/-- Witness for C10 at a concrete request with `refereed=false` and
`endorsed=false`. -/
theorem endorsed_strict_refereed_raw_witness :
    c10Params.refereed = some "false"
    ∧ c10Params.endorsed = some "false"
    ∧ (FilterClause.existsField "dc_description_refereed"
        ∈ (buildDocumentSearchQuery (parseParams c10Params)).filter
      ∧ FilterClause.existsField "obps_endorsementExternal_externalEndorsedBy"
        ∉ (buildDocumentSearchQuery (parseParams c10Params)).filter) :=
  ⟨rfl, rfl,
   (endorsed_strict_refereed_raw c10Params rfl rfl).2.2.2.2.1,
   (endorsed_strict_refereed_raw c10Params rfl rfl).2.2.2.2.2⟩

end OBP

namespace OBP

/-- The fallback error message `createIndex` builds for a body without
an error type can never be the already-exists error type. -/
theorem unexpected_ne_already_exists (s : String) :
    ("Unexpected " ++ s ++ " response") ≠ "resource_already_exists_exception" := by
  intro hcontra
  have h1 : ("Unexpected " ++ s ++ " response").data
      = "resource_already_exists_exception".data := by rw [hcontra]
  rw [String.data_append, String.data_append] at h1
  have h2 : "Unexpected ".data = 'U' :: "nexpected ".data := rfl
  have h3 : "resource_already_exists_exception".data
      = 'r' :: "esource_already_exists_exception".data := rfl
  rw [h2, h3, List.cons_append, List.cons_append] at h1
  simp only [List.cons.injEq] at h1
  exact absurd h1.1 (by decide)

/-- C7: a non-2xx or schema-invalid response fails the current
operation — term page fetch, bulk term load, index creation, document
put — with a propagated error, except an index-creation response whose
error type says the index already exists, which is success. -/
theorem upstream_failures_propagated (sc : Nat)
    (body : Option (List FetchTermsBinding)) (et : Option String)
    (rawBody : String) (parse : String → Option String) :
    (¬(200 ≤ sc ∧ sc ≤ 299) → exceptFailed (fetchTermsResult sc body) = true)
    ∧ exceptFailed (fetchTermsResult sc none) = true
    ∧ (¬(200 ≤ sc ∧ sc ≤ 299) → exceptFailed (bulkIndexTermsResult sc) = true)
    ∧ (¬(200 ≤ sc ∧ sc ≤ 299) → et ≠ some "resource_already_exists_exception" →
        exceptFailed (createIndexResult sc et) = true)
    ∧ createIndexResult sc (some "resource_already_exists_exception") = Except.ok ()
    ∧ exceptFailed (putDocumentItemResult none parse) = true
    ∧ (parse rawBody = none →
        exceptFailed (putDocumentItemResult (some rawBody) parse) = true) := by
  refine ⟨?_, ?_, ?_, ?_, ?_, rfl, ?_⟩
  · intro h
    have hne : sc ≠ 200 := by omega
    simp [fetchTermsResult, hne, exceptFailed]
  · by_cases hne : sc = 200
    · subst hne; simp [fetchTermsResult, exceptFailed]
    · simp [fetchTermsResult, hne, exceptFailed]
  · intro h
    have hne : sc ≠ 200 := by omega
    simp [bulkIndexTermsResult, hne, exceptFailed]
  · intro h het
    have hne : sc ≠ 200 := by omega
    cases et with
    | none =>
      simp only [createIndexResult, hne, if_false, Option.getD_none]
      rw [if_neg (unexpected_ne_already_exists (toString sc))]
      rfl
    | some v =>
      have hv : v ≠ "resource_already_exists_exception" := by
        intro hv; exact het (by rw [hv])
      simp [createIndexResult, hne, hv, exceptFailed]
  · by_cases hne : sc = 200
    · subst hne; simp [createIndexResult]
    · simp [createIndexResult, hne]
  · intro h
    simp [putDocumentItemResult, h, exceptFailed]

/-- Witness for C7 at concrete failing and already-exists responses. -/
theorem upstream_failures_propagated_witness :
    exceptFailed (fetchTermsResult 503 (some [])) = true
    ∧ exceptFailed (fetchTermsResult 200 none) = true
    ∧ exceptFailed (bulkIndexTermsResult 503) = true
    ∧ exceptFailed (createIndexResult 400 (some "mapper_parsing_exception")) = true
    ∧ createIndexResult 400 (some "resource_already_exists_exception") = Except.ok ()
    ∧ exceptFailed (putDocumentItemResult none (fun _ => none)) = true
    ∧ exceptFailed (putDocumentItemResult (some "bad") (fun _ => none)) = true :=
  ⟨(upstream_failures_propagated 503 (some []) none "bad" (fun _ => none)).1
     (by omega),
   (upstream_failures_propagated 200 (some []) none "bad" (fun _ => none)).2.1,
   (upstream_failures_propagated 503 (some []) none "bad" (fun _ => none)).2.2.1
     (by omega),
   (upstream_failures_propagated 400 (some [])
       (some "mapper_parsing_exception") "bad" (fun _ => none)).2.2.2.1
     (by omega) (by decide),
   (upstream_failures_propagated 400 (some []) none "bad"
       (fun _ => none)).2.2.2.2.1,
   (upstream_failures_propagated 400 (some []) none "bad"
       (fun _ => none)).2.2.2.2.2.1,
   (upstream_failures_propagated 400 (some []) none "bad"
       (fun _ => none)).2.2.2.2.2.2 rfl⟩

end OBP

namespace OBP

/-- Fuel-indexed totality of the `indexTerms` loop under a finiteness
bound: from any starting offset within `d` of the bound, some fuel makes
the run finish, the loop stops at an offset whose page is empty, and
every processed page was non-empty. -/
theorem indexTermsRun_reaches_empty
    (fetch : Nat → List FetchedTerm) (stopwords : List String) (N : Nat)
    (h : ∀ k, N ≤ k → fetch k = []) :
    ∀ (d offset : Nat), N - offset ≤ d →
      ∃ fuel tr, indexTermsRun fetch stopwords fuel offset = some tr
        ∧ fetch tr.finalOffset = []
        ∧ ∀ o ∈ tr.visited, fetch o ≠ [] := by
  intro d
  induction d with
  | zero =>
    intro offset hd
    have hempty : fetch offset = [] := h offset (by omega)
    refine ⟨1, { bulkCalls := [], visited := [], finalOffset := offset },
      ?_, hempty, by simp⟩
    simp [indexTermsRun, hempty]
  | succ d ih =>
    intro offset hd
    by_cases hempty : fetch offset = []
    · refine ⟨1, { bulkCalls := [], visited := [], finalOffset := offset },
        ?_, hempty, by simp⟩
      simp [indexTermsRun, hempty]
    · have hlen : 0 < (fetch offset).length := List.length_pos.mpr hempty
      have hoffN : offset < N := by
        by_contra hc
        exact hempty (h offset (by omega))
      have hd' : N - (offset + (fetch offset).length) ≤ d := by omega
      obtain ⟨fuel, tr, heq, hfin, hvis⟩ :=
        ih (offset + (fetch offset).length) hd'
      have hlen0 : ¬((fetch offset).length = 0) := by omega
      refine ⟨fuel + 1,
        { bulkCalls := (indexTermsStep stopwords offset (fetch offset)).1
            ++ tr.bulkCalls,
          visited := offset :: tr.visited,
          finalOffset := tr.finalOffset }, ?_, hfin, ?_⟩
      · have hstep : (indexTermsStep stopwords offset (fetch offset)).2
            = offset + (fetch offset).length := rfl
        simp only [indexTermsRun, hlen0, if_false, hstep, heq]
      · intro o ho
        rcases List.mem_cons.mp ho with ho | ho
        · subst ho; exact hempty
        · exact hvis o ho

/-- C9: if every fetch at or beyond some offset returns zero bindings,
the `indexTerms` pagination loop terminates, processing only non-empty
pages and stopping at the first page that returns zero bindings. -/
theorem indexTerms_terminates
    (fetch : Nat → List FetchedTerm) (stopwords : List String) (N : Nat)
    (h : ∀ k, N ≤ k → fetch k = []) :
    ∃ fuel tr, indexTermsRun fetch stopwords fuel 0 = some tr
      ∧ fetch tr.finalOffset = []
      ∧ ∀ o ∈ tr.visited, fetch o ≠ [] :=
  indexTermsRun_reaches_empty fetch stopwords N h N 0 (by omega)

/-- Witness for C9 at a concrete two-page term listing. -/
theorem indexTerms_terminates_witness :
    (∀ k, 2 ≤ k → c9Fetch k = [])
    ∧ ∃ fuel tr, indexTermsRun c9Fetch ["the"] fuel 0 = some tr
        ∧ c9Fetch tr.finalOffset = []
        ∧ ∀ o ∈ tr.visited, c9Fetch o ≠ [] := by
  have h : ∀ k, 2 ≤ k → c9Fetch k = [] := by
    intro k hk
    simp [c9Fetch, Nat.not_lt.mpr hk]
  exact ⟨h, indexTerms_terminates c9Fetch ["the"] 2 h⟩

end OBP

namespace OBP

/-- When the per-hit pass succeeds, it applied the handler to exactly
the hits of the page, in order. -/
theorem pMapRun_ok_handled {α ε : Type} (f : α → Except ε Unit) :
    ∀ l : List α, (pMapRun f l).1 = Except.ok () → (pMapRun f l).2 = l := by
  intro l
  induction l with
  | nil => intro _; rfl
  | cons a t ih =>
    intro hok
    cases hf : f a with
    | error e =>
      rw [pMapRun, hf] at hok
      exact absurd hok (by simp)
    | ok u =>
      rw [pMapRun, hf] at hok ⊢
      exact congrArg (a :: ·) (ih hok)

/-- The scan loop on an empty page exits at once with success and no
events, for any fuel. -/
theorem scrollLoop_nil {σ α ε S : Type} (next : σ → S → (σ × List α) × S)
    (f : α → Except ε Unit) (sid : σ) (fuel : Nat) (st : S) :
    scrollLoop next f sid fuel [] st = some (Except.ok (), []) := by
  cases fuel <;> simp [scrollLoop]

/-- `closeScroll` counting distributes over trace concatenation. -/
theorem closedCount_append {σ α : Type} (a b : List (ScrollEvent σ α)) :
    closedCount (a ++ b) = closedCount a + closedCount b := by
  induction a with
  | nil => simp [closedCount]
  | cons e t ih =>
    cases e with
    | handled h => simpa [closedCount] using ih
    | nextCalled s r => simpa [closedCount] using ih
    | closed c =>
      simp [closedCount, ih]
      omega

/-- A block of handler events contains no `closeScroll` call. -/
theorem closedCount_map_handled {σ α : Type} (l : List α) :
    closedCount (l.map (ScrollEvent.handled (σ := σ))) = 0 := by
  induction l with
  | nil => rfl
  | cons a t ih => simpa [closedCount] using ih

/-- Handled-hit extraction distributes over trace concatenation. -/
theorem handledHits_append {σ α : Type} (a b : List (ScrollEvent σ α)) :
    handledHits (a ++ b) = handledHits a ++ handledHits b := by
  induction a with
  | nil => simp [handledHits]
  | cons e t ih => cases e <;> simp [handledHits, ih]

/-- A block of handler events extracts back to exactly its hits. -/
theorem handledHits_map_handled {σ α : Type} (l : List α) :
    handledHits (l.map (ScrollEvent.handled (σ := σ))) = l := by
  induction l with
  | nil => rfl
  | cons a t ih => simpa [handledHits] using ih

/-- The scan loop of `scrollMap` over the paged store: with enough fuel
and non-empty pages it completes, never emits a `closeScroll` event
itself, and on the success path handles exactly the current page
followed by every hit of every remaining page, in order. -/
theorem scrollLoop_es_spec {α ε : Type} (f : α → Except ε Unit) (sid : Nat) :
    ∀ (pages : List (List α)) (hits : List α) (c fuel : Nat),
      pages.length + 1 ≤ fuel → (∀ p ∈ pages, p ≠ []) →
      (pages = [] ∨ hits ≠ []) →
      ∃ res evs, scrollLoop esNext f sid fuel hits (pages, c) = some (res, evs)
        ∧ closedCount evs = 0
        ∧ (res = Except.ok () → handledHits evs = hits ++ pages.flatten) := by
  intro pages
  induction pages with
  | nil =>
    intro hits c fuel hfuel hne hcase
    by_cases hh : hits = []
    · subst hh
      exact ⟨Except.ok (), [], scrollLoop_nil esNext f sid fuel ([], c), rfl,
        fun _ => by simp [handledHits]⟩
    · obtain ⟨k, rfl⟩ : ∃ k, fuel = k + 1 := ⟨fuel - 1, by omega⟩
      have hlen : hits.length > 0 := List.length_pos.mpr hh
      rcases hpm : pMapRun f hits with ⟨r, handled⟩
      cases r with
      | error e =>
        refine ⟨Except.error e, handled.map ScrollEvent.handled, ?_,
          closedCount_map_handled handled, ?_⟩
        · simp [scrollLoop, hlen, hpm]
        · intro hok; exact absurd hok (by simp)
      | ok u =>
        cases u
        have hhand : handled = hits := by
          have h0 := pMapRun_ok_handled f hits
          rw [hpm] at h0
          exact h0 rfl
        refine ⟨Except.ok (),
          hits.map ScrollEvent.handled ++ [ScrollEvent.nextCalled sid (c + 1)],
          ?_, ?_, ?_⟩
        · simp [scrollLoop, hlen, hpm, esNext, scrollLoop_nil, hhand]
        · simp [closedCount_append, closedCount_map_handled, closedCount]
        · intro _
          simp [handledHits_append, handledHits_map_handled, handledHits]
  | cons p rest ih =>
    intro hits c fuel hfuel hne hcase
    have hh : hits ≠ [] := by
      rcases hcase with hcase | hcase
      · exact absurd hcase (by simp)
      · exact hcase
    obtain ⟨k, rfl⟩ : ∃ k, fuel = k + 1 := ⟨fuel - 1, by omega⟩
    have hlen : hits.length > 0 := List.length_pos.mpr hh
    rcases hpm : pMapRun f hits with ⟨r, handled⟩
    cases r with
    | error e =>
      refine ⟨Except.error e, handled.map ScrollEvent.handled, ?_,
        closedCount_map_handled handled, ?_⟩
      · simp [scrollLoop, hlen, hpm]
      · intro hok; exact absurd hok (by simp)
    | ok u =>
      cases u
      have hhand : handled = hits := by
        have h0 := pMapRun_ok_handled f hits
        rw [hpm] at h0
        exact h0 rfl
      have hp : p ≠ [] := hne p (by simp)
      have hfuel' : rest.length + 1 ≤ k := by
        simp only [List.length_cons] at hfuel
        omega
      obtain ⟨res, evs, heq, hc0, hok⟩ :=
        ih p (c + 1) k hfuel' (fun q hq => hne q (by simp [hq])) (Or.inr hp)
      refine ⟨res,
        hits.map ScrollEvent.handled
          ++ ScrollEvent.nextCalled sid (c + 1) :: evs, ?_, ?_, ?_⟩
      · simp [scrollLoop, hlen, hpm, esNext, heq, hhand]
      · simp [closedCount_append, closedCount_map_handled, closedCount, hc0]
      · intro hres
        have hev := hok hres
        simp [handledHits_append, handledHits_map_handled, handledHits, hev]

/-- C2: over a store of non-empty pages and given enough fuel,
`scrollMap` completes; its trace contains exactly one `closeScroll`
call on every exit path (handler success or handler failure alike), and
when the handler never fails it is applied to every hit of every
returned page exactly once, in order. -/
theorem scrollMap_visits_once_closes_once {α ε : Type}
    (pages : List (List α)) (f : α → Except ε Unit) (fuel : Nat)
    (hfuel : pages.length + 1 ≤ fuel) (hne : ∀ p ∈ pages, p ≠ []) :
    ∃ res evs,
      scrollMapRun (esOpen pages).1 esNext (esOpen pages).2 f fuel
        = some (res, evs)
      ∧ closedCount evs = 1
      ∧ (res = Except.ok () → handledHits evs = pages.flatten) := by
  cases pages with
  | nil =>
    refine ⟨Except.ok (), [ScrollEvent.closed 0], ?_, rfl, fun _ => rfl⟩
    simp [scrollMapRun, esOpen, scrollLoop_nil]
  | cons p rest =>
    have h1 : rest.length + 1 ≤ fuel := by
      simp only [List.length_cons] at hfuel
      omega
    have h2 : ∀ q ∈ rest, q ≠ [] := fun q hq => hne q (by simp [hq])
    have hp : p ≠ [] := hne p (by simp)
    obtain ⟨res, evs, heq, hc0, hok⟩ :=
      scrollLoop_es_spec f 0 rest p 0 fuel h1 h2 (Or.inr hp)
    refine ⟨res, evs ++ [ScrollEvent.closed 0], ?_, ?_, ?_⟩
    · simp [scrollMapRun, esOpen, heq]
    · simp [closedCount_append, hc0, closedCount]
    · intro hres
      simp [handledHits_append, handledHits, hok hres]

/-- Witness for C2 at a concrete two-page store with an always-ok
handler. -/
theorem scrollMap_visits_once_closes_once_witness :
    (c2Pages.length + 1 ≤ 3 ∧ ∀ p ∈ c2Pages, p ≠ [])
    ∧ ∃ res evs,
        scrollMapRun (esOpen c2Pages).1 esNext (esOpen c2Pages).2 okHandler 3
          = some (res, evs)
        ∧ closedCount evs = 1
        ∧ (res = Except.ok () → handledHits evs = c2Pages.flatten) :=
  ⟨⟨by decide, by decide⟩,
   scrollMap_visits_once_closes_once c2Pages okHandler 3 (by decide) (by decide)⟩

end OBP

namespace OBP

/-- Folding the synonym-response walk from any accumulator appends
exactly the synonyms each binding contributes. -/
theorem parseSynonyms_foldl (bs : List SynonymsBinding) :
    ∀ acc : List String,
      bs.foldl
        (fun acc r =>
          match r.annotatedPropertyLabel with
          | some v =>
            if v == "has_exact_synonym" || v == "alternative_label" then
              acc ++ [r.annotatedTarget]
            else acc
          | none =>
            match r.sameAsLabel with
            | some s => acc ++ [s]
            | none => acc)
        acc
      = acc ++ bs.filterMap synonymOfBinding := by
  induction bs with
  | nil => intro acc; simp
  | cons r t ih =>
    intro acc
    rw [List.foldl_cons, ih, List.filterMap_cons]
    cases hr : r.annotatedPropertyLabel with
    | some v =>
      by_cases hv : v = "has_exact_synonym" ∨ v = "alternative_label"
      · have hb : (v == "has_exact_synonym" || v == "alternative_label") = true := by
          rcases hv with hv | hv <;> simp [hv]
        simp [synonymOfBinding, hr, hv, hb]
      · have hb : (v == "has_exact_synonym" || v == "alternative_label") = false := by
          push_neg at hv
          simp [hv.1, hv.2]
        simp [synonymOfBinding, hr, hv, hb]
    | none =>
      cases hs : r.sameAsLabel with
      | some s => simp [synonymOfBinding, hr, hs]
      | none => simp [synonymOfBinding, hr, hs]

/-- `parseSynonymsResponse` collects exactly the annotation targets of
exact-synonym/alternative-label bindings plus the preferred labels of
equivalence-related concepts, in response order. -/
theorem parseSynonymsResponse_eq (bs : List SynonymsBinding) :
    parseSynonymsResponse bs = bs.filterMap synonymOfBinding := by
  unfold parseSynonymsResponse
  rw [parseSynonyms_foldl bs []]
  simp

/-- When every per-keyword query succeeds, the expansion returns one
parsed synonym list per keyword, in keyword order. -/
theorem getSynonyms_ok (store : String → Except String (List SynonymsBinding))
    (bindings : String → List SynonymsBinding) :
    ∀ kws : List String, (∀ k ∈ kws, store k = Except.ok (bindings k)) →
      getSynonyms store kws
        = Except.ok (kws.map fun k => parseSynonymsResponse (bindings k)) := by
  intro kws
  induction kws with
  | nil => intro _; rfl
  | cons a t ih =>
    intro h
    have ha : store a = Except.ok (bindings a) := h a (by simp)
    have ht := ih (fun k hk => h k (by simp [hk]))
    simp [getSynonyms, ha, ht]

/-- If any per-keyword query fails, the whole expansion fails. -/
theorem getSynonyms_error (store : String → Except String (List SynonymsBinding)) :
    ∀ (kws : List String) (k e : String),
      k ∈ kws → store k = Except.error e →
      ∃ d, getSynonyms store kws = Except.error d := by
  intro kws
  induction kws with
  | nil => intro k e hk _; exact absurd hk (by simp)
  | cons a t ih =>
    intro k e hk he
    cases hsa : store a with
    | error e0 => exact ⟨e0, by simp [getSynonyms, hsa]⟩
    | ok bs =>
      rcases List.mem_cons.mp hk with hk | hk
      · subst hk
        rw [hsa] at he
        exact absurd he (by simp)
      · obtain ⟨d, hd⟩ := ih k e hk he
        exact ⟨d, by simp [getSynonyms, hsa, hd]⟩

/-- Concatenating per-keyword results onto the keyword list flattens
them in order. -/
theorem foldl_append_eq_flatten (rs : List (List String)) :
    ∀ init : List String,
      rs.foldl (fun acc r => acc ++ r) init = init ++ rs.flatten := by
  induction rs with
  | nil => intro init; simp
  | cons r t ih => intro init; simp [List.foldl_cons, ih]

/-- C8: with the synonyms flag active, the handler issues one graph
query per keyword; when all succeed it executes the search with the
original keywords followed by the flat concatenation of every parsed
per-keyword synonym list, where each response contributes exactly the
exact-synonym/alternative-label annotation targets plus the preferred
labels of equivalence-related concepts; when any single query fails the
handler returns a 500 error and executes no search. -/
theorem synonym_expansion (p : SearchQueryParams)
    (store : String → Except String (List SynonymsBinding))
    (hk : p.keywords ≠ none)
    (hsyn : jsTruthy (parseParams p).synonyms = true) :
    (∀ bindings : String → List SynonymsBinding,
      (∀ k ∈ (parseParams p).keywords, store k = Except.ok (bindings k)) →
      searchHandler (some p) store
        = { statusCode := 200,
            body := RespBody.searchResults
              { parseParams p with
                keywords := (parseParams p).keywords
                  ++ ((parseParams p).keywords.map
                        fun k => parseSynonymsResponse (bindings k)).flatten } })
    ∧ (∀ k e, k ∈ (parseParams p).keywords → store k = Except.error e →
        searchHandler (some p) store
          = { statusCode := 500, body := RespBody.errorBody })
    ∧ (∀ bs, parseSynonymsResponse bs = bs.filterMap synonymOfBinding) := by
  obtain ⟨ks, hks⟩ := Option.ne_none_iff_exists'.mp hk
  refine ⟨?_, ?_, parseSynonymsResponse_eq⟩
  · intro bindings hb
    have hget := getSynonyms_ok store bindings (parseParams p).keywords hb
    simp [searchHandler, hks, hsyn, hget, foldl_append_eq_flatten]
  · intro k e hkk he
    obtain ⟨d, hd⟩ := getSynonyms_error store (parseParams p).keywords k e hkk he
    simp [searchHandler, hks, hsyn, hd]

/-- Witness for C8 at a concrete request expanding `ocean,sea` against
an always-successful fixture store. -/
theorem synonym_expansion_witness :
    searchHandler (some c8Params) c8Store
      = { statusCode := 200,
          body := RespBody.searchResults
            { parseParams c8Params with
              keywords := (parseParams c8Params).keywords
                ++ ((parseParams c8Params).keywords.map
                      fun k => parseSynonymsResponse (c8Bindings k)).flatten } } :=
  (synonym_expansion c8Params c8Store (by decide)
    (by simp [parseParams, c8Params, jsTruthy])).1 c8Bindings (fun k _ => rfl)

end OBP
